import Mathlib

/-!
Verification of the `virtualenvapi.pip` module (`PipWrapper`), a thin
process-invocation wrapper around the external `pip` command.

Text is modelled as `List Char` internally (Python `str`), with `String`
wrappers at the API level.  Subprocess behaviour is modelled by passing the
outcome of the spawned process (`SpawnResult`) as an explicit input.
-/

/-- The set of characters stripped by Python `str.strip()` /
`bytes.strip()` for the ASCII range. -/
def pyIsSpace (c : Char) : Bool :=
  c = ' ' || c = '\t' || c = '\n' || c = '\x0d' || c = '\x0b' || c = '\x0c'

/-- Python `str.strip()` on the character-list representation. -/
def trimChars (xs : List Char) : List Char :=
  ((xs.dropWhile pyIsSpace).reverse.dropWhile pyIsSpace).reverse

/-- Python `s.strip()` at the `String` level. -/
def pyStrip (s : String) : String :=
  String.mk (trimChars s.data)

/-- Does `sep` occur at the head of `xs`?  (Used to locate the first
occurrence of a separator, as Python `str.split(sep, 1)` does.) -/
def leadMatch : List Char → List Char → Bool
  | [], _ => true
  | _ :: _, [] => false
  | a :: as, b :: bs => a = b && leadMatch as bs

/-- Python `s.split(sep, 1)` for a non-empty separator: `none` when `sep`
does not occur in `xs` (Python raises `ValueError` only for the empty
separator, which is never used here); otherwise the text before and after
the first occurrence. -/
def splitOnce (sep : List Char) : List Char → Option (List Char × List Char)
  | [] => if sep = [] then some ([], []) else none
  | c :: rest =>
    if leadMatch sep (c :: rest) then some ([], (c :: rest).drop sep.length)
    else (splitOnce sep rest).map fun p => (c :: p.1, p.2)

/-- Python `s.split(os.linesep)` on POSIX, where `os.linesep = "\n"`:
splits on every newline, keeping empty pieces; the empty string yields
`[""]`. -/
def splitLines : List Char → List (List Char)
  | [] => [[]]
  | c :: rest =>
    if c = '\n' then [] :: splitLines rest
    else
      match splitLines rest with
      | [] => [[c]]
      | l :: ls => (c :: l) :: ls

/-- The loop body of `PipWrapper.search` for one line of stdout
(`pip.py` lines 106-116): split on the literal `" - "` (skip the line if
absent), strip the name (skip if empty), and truncate the description at
the first `"<br"` before stripping it. -/
def parseLine (line : List Char) : Option (List Char × List Char) :=
  match splitOnce " - ".data line with
  | none => none
  | some (n, d) =>
    let name := trimChars n
    if name = [] then none
    else
      let desc :=
        match splitOnce "<br".data d with
        | none => d
        | some (a, _) => a
      some (name, trimChars desc)

/-- Python `dict` assignment `d[k] = v` on an insertion-ordered
association list: an existing key keeps its position and gets the new
value; a new key is appended. -/
def dictInsert (d : List (List Char × List Char)) (k v : List Char) :
    List (List Char × List Char) :=
  match d with
  | [] => [(k, v)]
  | (k0, v0) :: rest =>
    if k0 = k then (k, v) :: rest else (k0, v0) :: dictInsert rest k v

/-- One step of the `search` result loop: fold a line into the dictionary. -/
def searchStep (d : List (List Char × List Char)) (line : List Char) :
    List (List Char × List Char) :=
  match parseLine line with
  | none => d
  | some (n, v) => dictInsert d n v

/-- The result-parsing part of `PipWrapper.search` (`pip.py` lines
102-117): split stdout into lines and fold each parsed line into the
`packages` dictionary. -/
def searchParse (stdout : List Char) : List (List Char × List Char) :=
  (splitLines stdout).foldl searchStep []

/-- `searchParse` at the `String` level. -/
def searchParseStr (s : String) : List (String × String) :=
  (searchParse s.data).map fun p => (String.mk p.1, String.mk p.2)

/-- `os.path.join(a, b)` for POSIX (`posixpath.join`) restricted to two
components: if `b` is absolute it wins; otherwise it is appended, with a
separator unless `a` is empty or already ends in one. -/
def osPathJoin (a b : String) : String :=
  if b.data.head? = some '/' then b
  else if a.data = [] ∨ a.data.getLast? = some '/' then a ++ b
  else a ++ "/" ++ b

/-- Modelled from the spec: `virtualenvapi.util.to_text` is not under
`src/`; per the output contract of the spec, captured stdout/stderr are
"captured as text (decoded, whitespace-trimmed)".  Output is modelled as
text already, so the decoding step is the identity on it. -/
def toText (s : String) : String := s

/-- Modelled from the spec: `virtualenvapi/exceptions.py` is not under
`src/`.  The error taxonomy of the spec has a launch failure (`OSError` with a
message), a generic execution failure (`subprocess.CalledProcessError`,
whose mutable `output` attribute `pip.py` overwrites before re-raising),
and three domain-specific failures each carrying the tuple
`(exit code, captured output, package name)` that `pip.py` passes to the
constructor. -/
inductive PipError where
  | osError (msg : String)
  | calledProcessError (returncode : Int) (cmd : String) (output : String)
  | packageInstallationError (returncode : Int) (output : String) (package : String)
  | packageRemovalError (returncode : Int) (output : String) (package : String)
  | packageWheelError (returncode : Int) (output : String) (package : String)
  deriving DecidableEq

/-- Whether a failure is the generic execution failure
(`subprocess.CalledProcessError`) rather than a domain-specific one. -/
def isGenericFailure : PipError → Bool
  | PipError.calledProcessError _ _ _ => true
  | _ => false

/-- The outcome of the spawned subprocess, supplied as an explicit input:
either `Popen`/`communicate` completed with a return code and captured
raw stdout/stderr, or spawning raised an `OSError` with the given
message text. -/
inductive SpawnResult where
  | completed (returncode : Int) (stdout stderr : String)
  | osFailure (msg : String)
  deriving DecidableEq

/-- The class-level state of `PipWrapper`: the single shared
`global_pip_args` list.  In Python this is one list object aliased by the
class attribute and by every instance attribute created via
`self.global_pip_args += ...` (in-place extension), so all instances —
past and future — observe the same current list. -/
structure PipClassState where
  globalPipArgs : List String
  deriving DecidableEq

/-- The class attribute initialiser (`pip.py` line 15). -/
def initState : PipClassState :=
  PipClassState.mk ["--disable-pip-version-check"]

/-- Per-instance state of `PipWrapper`: the environment root `path` and
the copy of `os.environ` taken at construction (`pip.py` lines 18, 21). -/
structure PipWrapper where
  path : String
  env : List (String × String)
  deriving DecidableEq

/-- The flags appended for a cache directory (`pip.py` line 20), where
`expand` stands for `os.path.expanduser(os.path.expandvars(.))`, an
environment-dependent string transformation passed in explicitly. -/
def cacheArgs (expand : String → String) : Option String → List String
  | none => []
  | some c => ["--cache-dir", expand c]

/-- `PipWrapper.__init__(path, cache)` (`pip.py` lines 17-21): records the
path and the environment copy, and — when a cache is given — extends the
shared class-level list in place.  Returns the new instance together with
the updated class state. -/
def pipInit (expand : String → String) (osEnviron : List (String × String))
    (st : PipClassState) (path : String) (cache : Option String) :
    PipWrapper × PipClassState :=
  (PipWrapper.mk path osEnviron,
   PipClassState.mk (st.globalPipArgs ++ cacheArgs expand cache))

/-- `PipWrapper.pip_rpath` (`pip.py` lines 23-28):
`os.path.join('bin', 'pip')`. -/
def pipRpath : String := osPathJoin "bin" "pip"

/-- `PipWrapper.exists` (`pip.py` lines 30-34), with the filesystem
modelled as the predicate `isFile` telling which paths hold a regular
file.  A pure observation: it touches neither the wrapper nor the class
state. -/
def pipExists (isFile : String → Bool) (w : PipWrapper) : Bool :=
  isFile (osPathJoin w.path pipRpath)

/-- The arguments of the `subprocess.Popen` call made by
`PipWrapper._execute` (`pip.py` lines 40-43): the argument vector
`[pip_rpath] + global_pip_args + args`, the working directory `self.path`
and the environment `self.env`.  `st` is the class state at invocation
time, which is what `self.global_pip_args` denotes (shared list). -/
structure SpawnCall where
  argv : List String
  cwd : String
  env : List (String × String)
  deriving DecidableEq

/-- Builds the `Popen` call of `PipWrapper._execute` (`pip.py` lines
40-43). -/
def spawnCall (st : PipClassState) (w : PipWrapper) (args : List String) :
    SpawnCall :=
  SpawnCall.mk (pipRpath :: (st.globalPipArgs ++ args)) w.path w.env

/-- `PipWrapper._execute` (`pip.py` lines 36-59) given the subprocess
outcome.  On exit code 0 it returns the stripped, decoded
`(stdout, stderr)` pair.  On a non-zero exit it raises
`CalledProcessError(returncode, args[0], (stdout, stderr))`, which the
`except CalledProcessError` clause catches, overwrites `e.output` with
the stdout component alone, and re-raises.  On an `OSError` from `Popen`
it raises an `OSError` whose message is the resolved program path —
joined onto `self.path` when `args[0]` does not start with `os.sep` —
followed by the underlying error text. -/
def pipExecute (st : PipClassState) (w : PipWrapper) (args : List String)
    (res : SpawnResult) : Except PipError (String × String) :=
  let call := spawnCall st w args
  match res with
  | SpawnResult.osFailure msg =>
    let prog := call.argv.headI
    let resolved := if prog.data.head? = some '/' then prog
                    else osPathJoin w.path prog
    Except.error (PipError.osError (resolved ++ ": " ++ msg))
  | SpawnResult.completed rc stdout stderr =>
    if rc = 0 then
      Except.ok (toText (pyStrip stdout), toText (pyStrip stderr))
    else
      Except.error (PipError.calledProcessError rc pipRpath stdout)

/-- `PipWrapper.install` (`pip.py` lines 61-71), with the default
`options=None` modelled as the empty list.  Re-wraps a
`CalledProcessError` from `_execute` into
`PackageInstallationException((e.returncode, e.output, package_name))`. -/
def install (st : PipClassState) (w : PipWrapper) (packageName : String)
    (options : List String) (res : SpawnResult) :
    Except PipError (String × String) :=
  match pipExecute st w (["install", packageName] ++ options) res with
  | Except.error (PipError.calledProcessError rc _ out) =>
    Except.error (PipError.packageInstallationError rc out packageName)
  | other => other

/-- `PipWrapper.uninstall` (`pip.py` lines 73-81).  Re-wraps a
`CalledProcessError` into
`PackageRemovalException((e.returncode, e.output, package_name))`. -/
def uninstall (st : PipClassState) (w : PipWrapper) (packageName : String)
    (res : SpawnResult) : Except PipError (String × String) :=
  match pipExecute st w ["uninstall", "-y", packageName] res with
  | Except.error (PipError.calledProcessError rc _ out) =>
    Except.error (PipError.packageRemovalError rc out packageName)
  | other => other

/-- `PipWrapper.wheel` (`pip.py` lines 83-93).  Re-wraps a
`CalledProcessError` into
`PackageWheelException((e.returncode, e.output, package_name))`. -/
def wheel (st : PipClassState) (w : PipWrapper) (packageName : String)
    (options : List String) (res : SpawnResult) :
    Except PipError (String × String) :=
  match pipExecute st w (["wheel", packageName] ++ options) res with
  | Except.error (PipError.calledProcessError rc _ out) =>
    Except.error (PipError.packageWheelError rc out packageName)
  | other => other

/-- `PipWrapper.search` (`pip.py` lines 95-117): runs `search <term>`,
takes the stdout component, and parses it into the package dictionary.
Failures from `_execute` propagate unwrapped. -/
def search (st : PipClassState) (w : PipWrapper) (term : String)
    (res : SpawnResult) : Except PipError (List (String × String)) :=
  match pipExecute st w ["search", term] res with
  | Except.error e => Except.error e
  | Except.ok out => Except.ok (searchParseStr out.1)

/-- Decidable equality for `Except`, used to evaluate the model on
concrete inputs. -/
instance {ε α : Type} [DecidableEq ε] [DecidableEq α] :
    DecidableEq (Except ε α) := fun x y =>
  match x, y with
  | Except.ok a, Except.ok b =>
    if h : a = b then Decidable.isTrue (by rw [h])
    else Decidable.isFalse (by intro hc; cases hc; exact h rfl)
  | Except.error a, Except.error b =>
    if h : a = b then Decidable.isTrue (by rw [h])
    else Decidable.isFalse (by intro hc; cases hc; exact h rfl)
  | Except.ok _, Except.error _ => Decidable.isFalse (by intro hc; cases hc)
  | Except.error _, Except.ok _ => Decidable.isFalse (by intro hc; cases hc)

/-- C1: for every package name and every non-zero subprocess exit code,
`install` raises `PackageInstallationException` whose payload carries that
exit code and that package name (together with the captured stdout). -/
theorem install_nonzero_raises_installation_failure
    (st : PipClassState) (w : PipWrapper) (packageName : String)
    (options : List String) (rc : Int) (stdout stderr : String)
    (h : rc ≠ 0) :
    install st w packageName options (SpawnResult.completed rc stdout stderr)
      = Except.error (PipError.packageInstallationError rc stdout packageName) := by
  simp [install, pipExecute, h]

/-- Witness for `install_nonzero_raises_installation_failure` at exit code
2 and package name `"requests"`. -/
theorem install_nonzero_raises_installation_failure_witness :
    install initState (PipWrapper.mk "/env" []) "requests" []
        (SpawnResult.completed 2 "out" "err")
      = Except.error (PipError.packageInstallationError 2 "out" "requests") :=
  install_nonzero_raises_installation_failure initState (PipWrapper.mk "/env" [])
    "requests" [] 2 "out" "err" (by decide)

/-- C6: for every package name, when the subprocess exits with code 0,
`install` returns the `(stdout, stderr)` pair with each component
whitespace-trimmed and decoded to text, and raises no failure. -/
theorem install_zero_exit_returns_trimmed_pair
    (st : PipClassState) (w : PipWrapper) (packageName : String)
    (options : List String) (stdout stderr : String) :
    install st w packageName options (SpawnResult.completed 0 stdout stderr)
      = Except.ok (toText (pyStrip stdout), toText (pyStrip stderr)) := by
  simp [install, pipExecute]

/-- C2 counterexample: at exit code 1 with stdout `"outA"` and stderr
`"errB"`, the generic execution failure that escapes `_execute` — and the
payload that `install` re-wraps — carries `"outA"` alone: the
`(stdout, stderr)` pair attached when the failure is first raised is
overwritten with just the stdout component before the re-raise, so the
payload is not the combined output `"outA" ++ "errB"`. -/
theorem execute_payload_not_combined_counterexample :
    pipExecute initState (PipWrapper.mk "/env" []) ["install", "p"]
        (SpawnResult.completed 1 "outA" "errB")
      = Except.error (PipError.calledProcessError 1 pipRpath "outA")
    ∧ install initState (PipWrapper.mk "/env" []) "p" []
        (SpawnResult.completed 1 "outA" "errB")
      = Except.error (PipError.packageInstallationError 1 "outA" "p")
    ∧ ("outA" : String) ≠ "outA" ++ "errB" := by
  refine ⟨by decide, by decide, by decide⟩

/-- C2 amended: for every invocation that exits non-zero, the generic
execution failure escaping the low-level execution step carries the exit
code and the captured stdout only (stderr is dropped when `e.output` is
overwritten before the re-raise), and this stdout-only payload is what
the public methods re-wrap. -/
theorem execute_nonzero_payload_is_stdout_only
    (st : PipClassState) (w : PipWrapper) (args : List String)
    (rc : Int) (stdout stderr : String) (h : rc ≠ 0) :
    pipExecute st w args (SpawnResult.completed rc stdout stderr)
      = Except.error (PipError.calledProcessError rc pipRpath stdout) := by
  simp [pipExecute, h]

/-- Witness for `execute_nonzero_payload_is_stdout_only` at exit code 3. -/
theorem execute_nonzero_payload_is_stdout_only_witness :
    pipExecute initState (PipWrapper.mk "/env" []) ["wheel", "p"]
        (SpawnResult.completed 3 "so" "se")
      = Except.error (PipError.calledProcessError 3 pipRpath "so") :=
  execute_nonzero_payload_is_stdout_only initState (PipWrapper.mk "/env" [])
    ["wheel", "p"] 3 "so" "se" (by decide)

/-- C5: for every package name and non-zero exit code, `uninstall` raises
the package-removal failure and `wheel` the package-build failure, each a
distinct kind carrying exit code, captured output and package name, and
neither result is the generic execution failure. -/
theorem uninstall_wheel_distinct_failures
    (st : PipClassState) (w : PipWrapper) (packageName : String)
    (options : List String) (rc : Int) (stdout stderr : String)
    (h : rc ≠ 0) :
    uninstall st w packageName (SpawnResult.completed rc stdout stderr)
      = Except.error (PipError.packageRemovalError rc stdout packageName)
    ∧ wheel st w packageName options (SpawnResult.completed rc stdout stderr)
      = Except.error (PipError.packageWheelError rc stdout packageName)
    ∧ PipError.packageRemovalError rc stdout packageName
        ≠ PipError.packageWheelError rc stdout packageName
    ∧ isGenericFailure (PipError.packageRemovalError rc stdout packageName) = false
    ∧ isGenericFailure (PipError.packageWheelError rc stdout packageName) = false := by
  refine ⟨?_, ?_, ?_, ?_, ?_⟩
  · simp [uninstall, pipExecute, h]
  · simp [wheel, pipExecute, h]
  · intro hc; cases hc
  · rfl
  · rfl

/-- Witness for `uninstall_wheel_distinct_failures` at exit code 1 and
package name `"six"`. -/
theorem uninstall_wheel_distinct_failures_witness :
    uninstall initState (PipWrapper.mk "/env" []) "six"
        (SpawnResult.completed 1 "o" "e")
      = Except.error (PipError.packageRemovalError 1 "o" "six")
    ∧ wheel initState (PipWrapper.mk "/env" []) "six" []
        (SpawnResult.completed 1 "o" "e")
      = Except.error (PipError.packageWheelError 1 "o" "six")
    ∧ PipError.packageRemovalError 1 "o" "six"
        ≠ PipError.packageWheelError 1 "o" "six"
    ∧ isGenericFailure (PipError.packageRemovalError 1 "o" "six") = false
    ∧ isGenericFailure (PipError.packageWheelError 1 "o" "six") = false :=
  uninstall_wheel_distinct_failures initState (PipWrapper.mk "/env" []) "six" []
    1 "o" "e" (by decide)

/-- C4: `search` splits stdout into lines, splits each line on the literal
`" - "`, skips separator-less lines and empty names, trims both parts,
truncates the description at `"<br"`, and in particular maps
`"foo - bar baz\nno-separator-line\nqux - quux<br>extra"` to
`{"foo": "bar baz", "qux": "quux"}`; empty stdout yields the empty
mapping. -/
theorem search_example_and_empty :
    search initState (PipWrapper.mk "/env" []) "term"
        (SpawnResult.completed 0 "foo - bar baz\nno-separator-line\nqux - quux<br>extra" "")
      = Except.ok [("foo", "bar baz"), ("qux", "quux")]
    ∧ search initState (PipWrapper.mk "/env" []) "term"
        (SpawnResult.completed 0 "" "")
      = Except.ok [] := by
  refine ⟨by decide, by decide⟩

/-- C9: when spawning fails with an OS error, the message of the launch
failure is the resolved program path — the relative executable path
`bin/pip` joined onto the environment root, since it does not start with
`os.sep` — followed by the underlying OS error text. -/
theorem os_error_reports_resolved_path
    (st : PipClassState) (w : PipWrapper) (args : List String) (msg : String) :
    pipExecute st w args (SpawnResult.osFailure msg)
      = Except.error (PipError.osError (osPathJoin w.path pipRpath ++ ": " ++ msg)) := by
  simp only [pipExecute, spawnCall, List.headI]
  rw [if_neg (by decide)]

/-- C3 counterexample: starting from the initial class state, construct
`w1` at `"/e1"` without a cache, then a second wrapper at `"/e2"` with
cache `"/cache"`.  The argument vector `w1` would now use has changed
(the shared class-level list gained the cache flags), and constructing
the `"/cache"` configuration a second time yields a different (longer)
flag list than the first time. -/
theorem global_args_cross_instance_leak_counterexample :
    (spawnCall (pipInit id [] (pipInit id [] initState "/e1" none).2 "/e2"
          (some "/cache")).2
        (pipInit id [] initState "/e1" none).1 ["install", "p"]).argv
      ≠ (spawnCall (pipInit id [] initState "/e1" none).2
        (pipInit id [] initState "/e1" none).1 ["install", "p"]).argv
    ∧ (pipInit id [] (pipInit id [] (pipInit id [] initState "/e1" none).2 "/e2"
          (some "/cache")).2 "/e3" (some "/cache")).2.globalPipArgs
      ≠ (pipInit id [] (pipInit id [] initState "/e1" none).2 "/e2"
          (some "/cache")).2.globalPipArgs := by
  refine ⟨by decide, by decide⟩

/-- C3 amended: `global_pip_args` is a single class-level list shared by
all instances.  Constructing a wrapper with a cache directory appends the
cache flags to that shared list, so the argument vector of every wrapper
— past and future — subsequently includes the appended flags, and
constructing the same cache configuration twice appends the flags
twice. -/
theorem global_args_shared_append
    (expand : String → String) (osEnviron : List (String × String))
    (st : PipClassState) (path c : String) (w : PipWrapper)
    (args : List String) :
    ((pipInit expand osEnviron st path (some c)).2).globalPipArgs
        = st.globalPipArgs ++ ["--cache-dir", expand c]
    ∧ (spawnCall (pipInit expand osEnviron st path (some c)).2 w args).argv
        = pipRpath :: (st.globalPipArgs ++ ["--cache-dir", expand c] ++ args)
    ∧ ((pipInit expand osEnviron
          (pipInit expand osEnviron st path (some c)).2 path (some c)).2).globalPipArgs
        = st.globalPipArgs ++ ["--cache-dir", expand c]
            ++ ["--cache-dir", expand c] := by
  refine ⟨rfl, by simp [spawnCall, pipInit, cacheArgs], by simp [pipInit, cacheArgs]⟩

/-- The class states reachable from the class attribute initialiser by a
sequence of `PipWrapper` constructions (with arbitrary paths, caches, and
expansion environments). -/
inductive ReachableState : PipClassState → Prop where
  | base : ReachableState initState
  | step (expand : String → String) (osEnviron : List (String × String))
      (path : String) (cache : Option String) {st : PipClassState} :
      ReachableState st →
      ReachableState (pipInit expand osEnviron st path cache).2

/-- In every reachable class state, the shared flag list starts with the
version-check-disabling flag: constructions only append to it. -/
theorem reachable_head_flag {st : PipClassState} (h : ReachableState st) :
    st.globalPipArgs.head? = some "--disable-pip-version-check" := by
  induction h with
  | base => rfl
  | step expand osEnviron path cache hst ih =>
    rename_i st0
    cases hg : st0.globalPipArgs with
    | nil => rw [hg] at ih; cases ih
    | cons a t =>
      rw [hg] at ih
      simp only [pipInit, List.cons_append, List.head?_cons] at ih ⊢
      rw [hg]
      simpa using ih

/-- Witness for `reachable_head_flag` after one construction with a
cache directory. -/
theorem reachable_head_flag_witness :
    ((pipInit id [] initState "/env" (some "/c")).2).globalPipArgs.head?
      = some "--disable-pip-version-check" :=
  reachable_head_flag (ReachableState.step id [] "/env" (some "/c") ReachableState.base)

/-- C7: the argument vector of every invocation is the relative executable
path `"bin/pip"`, then the global flags — which, from any reachable class
state, always start with the version-check-disabling flag and gain the
cache-directory flags exactly when a cache is configured — then the
per-call arguments; and the process is spawned with working directory
equal to the environment root and the environment copy stored at
construction. -/
theorem invocation_argv_cwd_env
    (expand : String → String) (osEnviron : List (String × String))
    (st : PipClassState) (path : String) (cache : Option String)
    (args : List String) (h : ReachableState st) :
    (spawnCall (pipInit expand osEnviron st path cache).2
        (pipInit expand osEnviron st path cache).1 args).argv
      = pipRpath
        :: (((pipInit expand osEnviron st path cache).2).globalPipArgs ++ args)
    ∧ pipRpath = "bin/pip"
    ∧ ((pipInit expand osEnviron st path cache).2).globalPipArgs.head?
        = some "--disable-pip-version-check"
    ∧ (∀ c, cache = some c →
        ((pipInit expand osEnviron st path cache).2).globalPipArgs
          = st.globalPipArgs ++ ["--cache-dir", expand c])
    ∧ (cache = none →
        ((pipInit expand osEnviron st path cache).2).globalPipArgs
          = st.globalPipArgs)
    ∧ (spawnCall (pipInit expand osEnviron st path cache).2
        (pipInit expand osEnviron st path cache).1 args).cwd = path
    ∧ (spawnCall (pipInit expand osEnviron st path cache).2
        (pipInit expand osEnviron st path cache).1 args).env = osEnviron := by
  refine ⟨rfl, by decide, ?_, ?_, ?_, rfl, rfl⟩
  · exact reachable_head_flag (ReachableState.step expand osEnviron path cache h)
  · intro c hc
    subst hc
    rfl
  · intro hc
    subst hc
    simp [pipInit, cacheArgs]

/-- Witness for `invocation_argv_cwd_env`: one construction with a cache
directory from the initial class state. -/
theorem invocation_argv_cwd_env_witness :
    (spawnCall (pipInit id [] initState "/env" (some "/c")).2
        (pipInit id [] initState "/env" (some "/c")).1 ["install", "p"]).argv
      = pipRpath
        :: (((pipInit id [] initState "/env" (some "/c")).2).globalPipArgs
            ++ ["install", "p"]) :=
  (invocation_argv_cwd_env id [] initState "/env" (some "/c") ["install", "p"]
    ReachableState.base).1

/-- C8: `exists()` returns true iff a file is present at the join of the
environment root with `bin/pip`; for a root that is non-empty and does
not already end in a separator, that path is `root ++ "/" ++ "bin/pip"`.
It is a pure observation of the filesystem (no wrapper state involved). -/
theorem exists_iff_file_at_join (isFile : String → Bool) (w : PipWrapper)
    (h1 : w.path.data ≠ []) (h2 : w.path.data.getLast? ≠ some '/') :
    (pipExists isFile w = true
      ↔ isFile (w.path ++ "/" ++ "bin/pip") = true) := by
  have hr : pipRpath = "bin/pip" := by decide
  have hjoin : osPathJoin w.path pipRpath = w.path ++ "/" ++ "bin/pip" := by
    rw [hr]
    unfold osPathJoin
    rw [if_neg (by decide), if_neg ?_]
    intro hc
    exact hc.elim h1 h2
  unfold pipExists
  rw [hjoin]

/-- Witness for `exists_iff_file_at_join` at root `"/env"` with a
filesystem that holds exactly `"/env/bin/pip"`. -/
theorem exists_iff_file_at_join_witness :
    (pipExists (fun s => s = "/env/bin/pip") (PipWrapper.mk "/env" []) = true
      ↔ (fun s : String => (s = "/env/bin/pip" : Bool))
          ("/env" ++ "/" ++ "bin/pip") = true) :=
  exists_iff_file_at_join (fun s => s = "/env/bin/pip") (PipWrapper.mk "/env" [])
    (by decide) (by decide)

/-- First-match lookup on an insertion-ordered association list: the
value that Python `d[n]` would return. -/
def assocLookup (d : List (List Char × List Char)) (n : List Char) :
    Option (List Char) :=
  match d with
  | [] => none
  | (k, v) :: rest => if k = n then some v else assocLookup rest n

/-- The value of the last entry with key `n` in a list of parsed
`(name, description)` entries, if any. -/
def lastDesc (entries : List (List Char × List Char)) (n : List Char) :
    Option (List Char) :=
  match entries with
  | [] => none
  | (k, v) :: rest =>
    match lastDesc rest n with
    | some r => some r
    | none => if k = n then some v else none

/-- Take the first option when present, otherwise the fallback. -/
def orFallback (o fallback : Option (List Char)) : Option (List Char) :=
  match o with
  | some r => some r
  | none => fallback

theorem orFallback_none (o : Option (List Char)) : orFallback o none = o := by
  cases o <;> rfl

/-- Looking a key up after a dictionary assignment: the assigned key maps
to the new value, every other key is unaffected. -/
theorem assocLookup_dictInsert (d : List (List Char × List Char))
    (k v n : List Char) :
    assocLookup (dictInsert d k v) n
      = if k = n then some v else assocLookup d n := by
  induction d with
  | nil => simp [dictInsert, assocLookup]
  | cons hd tl ih =>
    obtain ⟨k0, v0⟩ := hd
    by_cases hk : k0 = k
    · subst hk
      by_cases hn : k0 = n
      · subst hn; simp [dictInsert, assocLookup]
      · simp [dictInsert, assocLookup, hn]
    · by_cases hn : k0 = n
      · subst hn
        have hk2 : ¬ (k = k0) := fun hc => hk hc.symm
        simp [dictInsert, hk, assocLookup, hk2]
      · simp [dictInsert, hk, assocLookup, hn, ih]

/-- Dictionary assignment leaves the key list unchanged when the key is
already present, and appends the key otherwise. -/
theorem dictInsert_keys (d : List (List Char × List Char)) (k v : List Char) :
    (dictInsert d k v).map Prod.fst
      = if k ∈ d.map Prod.fst then d.map Prod.fst
        else d.map Prod.fst ++ [k] := by
  induction d with
  | nil => simp [dictInsert]
  | cons hd tl ih =>
    obtain ⟨k0, v0⟩ := hd
    by_cases hk : k0 = k
    · subst hk; simp [dictInsert]
    · have hk2 : ¬ (k = k0) := fun hc => hk hc.symm
      by_cases hm : k ∈ tl.map Prod.fst
      · simp [dictInsert, hk, ih, hm, hk2]
      · simp [dictInsert, hk, ih, hm, hk2]

/-- Dictionary assignment preserves distinctness of the keys. -/
theorem dictInsert_nodupKeys (d : List (List Char × List Char))
    (k v : List Char) (h : (d.map Prod.fst).Nodup) :
    ((dictInsert d k v).map Prod.fst).Nodup := by
  rw [dictInsert_keys]
  by_cases hm : k ∈ d.map Prod.fst
  · simpa [hm] using h
  · simp only [hm, if_false]
    rw [List.nodup_append]
    exact ⟨h, List.nodup_singleton k, by
      intro a ha hb
      rw [List.mem_singleton] at hb
      subst hb
      exact hm ha⟩

/-- The `search` result dictionary always has distinct keys. -/
theorem searchStep_foldl_nodup (lines : List (List Char))
    (d : List (List Char × List Char)) (h : (d.map Prod.fst).Nodup) :
    (((lines.foldl searchStep d)).map Prod.fst).Nodup := by
  induction lines generalizing d with
  | nil => exact h
  | cons line rest ih =>
    rw [List.foldl_cons]
    apply ih
    cases hp : parseLine line with
    | none => simpa [searchStep, hp] using h
    | some kv =>
      obtain ⟨k, v⟩ := kv
      simpa [searchStep, hp] using dictInsert_nodupKeys d k v h

/-- Folding lines into the dictionary: the lookup of `n` is the value of
the last parsed entry with name `n`, falling back to the accumulator. -/
theorem searchStep_foldl_lookup (lines : List (List Char))
    (d : List (List Char × List Char)) (n : List Char) :
    assocLookup (lines.foldl searchStep d) n
      = orFallback (lastDesc (lines.filterMap parseLine) n)
          (assocLookup d n) := by
  induction lines generalizing d with
  | nil => simp [lastDesc, orFallback]
  | cons line rest ih =>
    rw [List.foldl_cons, ih]
    cases hp : parseLine line with
    | none => simp [searchStep, hp, List.filterMap_cons]
    | some kv =>
      obtain ⟨k, v⟩ := kv
      simp only [List.filterMap_cons, hp]
      cases hl : lastDesc (rest.filterMap parseLine) n with
      | some r => simp [lastDesc, hl, orFallback]
      | none =>
        simp only [lastDesc, hl, orFallback, searchStep, hp,
          assocLookup_dictInsert]
        by_cases hn : k = n <;> simp [hn]

/-- A successful lookup means the key is among the keys of the dictionary. -/
theorem assocLookup_mem (d : List (List Char × List Char)) (n : List Char)
    (h : assocLookup d n ≠ none) : n ∈ d.map Prod.fst := by
  induction d with
  | nil => simp [assocLookup] at h
  | cons hd tl ih =>
    obtain ⟨k, v⟩ := hd
    by_cases hk : k = n
    · subst hk; simp
    · rw [assocLookup, if_neg hk] at h
      simp [ih h]

/-- C10: when several lines of `search` output parse to the same trimmed
name, the returned mapping has distinct keys (so the name appears at most
once — exactly once as soon as some line parses to it), and its value for
the name is the description of the last such line. -/
theorem search_duplicate_names_last_wins (stdout n : List Char) :
    ((searchParse stdout).map Prod.fst).Nodup
    ∧ assocLookup (searchParse stdout) n
        = lastDesc ((splitLines stdout).filterMap parseLine) n
    ∧ (lastDesc ((splitLines stdout).filterMap parseLine) n ≠ none
        → n ∈ (searchParse stdout).map Prod.fst) := by
  have hnodup : ((searchParse stdout).map Prod.fst).Nodup :=
    searchStep_foldl_nodup (splitLines stdout) [] (by simp)
  have hlook : assocLookup (searchParse stdout) n
      = lastDesc ((splitLines stdout).filterMap parseLine) n := by
    have h := searchStep_foldl_lookup (splitLines stdout) [] n
    rw [searchParse]
    rw [h, show assocLookup [] n = none from rfl, orFallback_none]
  refine ⟨hnodup, hlook, ?_⟩
  intro h
  rw [← hlook] at h
  exact assocLookup_mem _ _ h

/-- Witness for `search_duplicate_names_last_wins` on a stdout with a
duplicated package name: the mapping has distinct keys and the lookup of
the name gives the last description. -/
theorem search_duplicate_names_last_wins_witness :
    ((searchParse "a - one\na - two".data).map Prod.fst).Nodup
    ∧ assocLookup (searchParse "a - one\na - two".data) "a".data
        = lastDesc ((splitLines "a - one\na - two".data).filterMap parseLine)
            "a".data
    ∧ (lastDesc ((splitLines "a - one\na - two".data).filterMap parseLine)
          "a".data ≠ none
        → "a".data ∈ (searchParse "a - one\na - two".data).map Prod.fst) :=
  search_duplicate_names_last_wins "a - one\na - two".data "a".data
